import Mathlib

/-!
Shallow embedding of the hybrid-systems witness-function test harness
(`drake/systems/analysis/test/logistic_system.h`) and of the manipulation
station example (`examples/manipulation_station/manipulation_station.cc`),
together with theorems settling the frozen claims about them.

Scalars are modelled over an arbitrary field (the C++ code is templated on
the scalar type `T`); code that C++ instantiates only at `double` is
modelled over `ℚ` so that every definition is executable and decidable.
The C `pow` function is passed as an explicit function parameter `pw`.
Const-reference parameters (non-mutating) are modelled by returning the
input `Context` unchanged in a pair, making non-mutation a provable fact.
-/

namespace Drake

/-- Trigger direction of a witness function.  The source constructs its
witness with `DirectionType::kCrossesZero`; the spec names the remaining
minimal variants becomes-positive and becomes-negative. -/
inductive DirectionType where
  | kCrossesZero
  | kBecomesPositive
  | kBecomesNegative
  deriving DecidableEq

/-- Discrete-event action tag; the source uses `DiscreteEvent::kPublishAction`. -/
inductive ActionType where
  | kPublishAction
  | kDiscreteUpdateAction
  deriving DecidableEq

/-- A `Context<T>`: the time plus the continuous-state vector, the only parts
of the framework Context that the embedded code touches. -/
structure Context (T : Type) where
  time : T
  continuous : List T
  deriving DecidableEq

/-- A `WitnessFunction<T>`: trigger direction, associated discrete-event
action, and the scalar evaluation rule over a Context. -/
structure WitnessFunction (T : Type) where
  direction : DirectionType
  action : ActionType
  evaluate : Context T → T

/-- `LogisticWitness::DoEvaluate`: returns `(*context.get_continuous_state())[0]`. -/
def DoEvaluate {T : Type} [Field T] (context : Context T) : T :=
  context.continuous.getD 0 0

/-- `DoEvaluate` with the const `Context` threaded through explicitly: the
C++ parameter is a const reference, so the context comes back unchanged. -/
def DoEvaluateFull {T : Type} [Field T] (context : Context T) : Context T × T :=
  (context, DoEvaluate context)

/-- The `LogisticWitness` constructor: direction `kCrossesZero`, action
`kPublishAction`, evaluation rule `DoEvaluate`.  (The stored back-pointer
`system_` is never read by `DoEvaluate` and carries no data.) -/
def LogisticWitness (T : Type) [Field T] : WitnessFunction T :=
  { direction := DirectionType.kCrossesZero
    action := ActionType.kPublishAction
    evaluate := DoEvaluate }

/-- `LogisticSystem<T>` state: the parameters `k_`, `alpha_`, `nu_`, the
owned witness `witness_`, and `publish_callback_`.  `E` is the (opaque)
observable effect type of the publish callback. -/
structure LogisticSystem (T : Type) (E : Type) where
  k : T
  alpha : T
  nu : T
  witness : WitnessFunction T
  publish_callback : Option (Context T → E)

/-- The state-shape declarations a `LeafSystem` constructor makes. -/
structure SystemDecl where
  continuousStateSize : Nat
  deriving DecidableEq

/-- The `LogisticSystem` constructor: stores the parameters, calls
`DeclareContinuousState(1)`, builds the `LogisticWitness`, and leaves
`publish_callback_` at its `nullptr` default. -/
def mkLogisticSystem {T E : Type} [Field T] (k alpha nu : T) :
    LogisticSystem T E × SystemDecl :=
  ({ k := k, alpha := alpha, nu := nu,
     witness := LogisticWitness T,
     publish_callback := none },
   { continuousStateSize := 1 })

/-- `LogisticSystem::DoCalcTimeDerivatives`: reads `t` and `x` from the const
Context, then writes `alpha_ * (1 - pow(x/k_, nu_)) * t` into slot 0 of the
output buffer.  `pw` is the C `pow` function.  The const Context is threaded
through unchanged. -/
def DoCalcTimeDerivatives {T E : Type} [Field T] (pw : T → T → T)
    (sys : LogisticSystem T E) (context : Context T)
    (continuous_state : List T) : Context T × List T :=
  let t := context.time
  let x := context.continuous.getD 0 0
  (context, continuous_state.set 0 (sys.alpha * (1 - pw (x / sys.k) sys.nu) * t))

/-- `LogisticSystem::get_witness_functions`: returns the one-element vector
holding the system's own stored witness. -/
def get_witness_functions {T E : Type} (sys : LogisticSystem T E)
    (_context : Context T) : List (WitnessFunction T) :=
  [sys.witness]

/-- `LogisticSystem::DoPublish`: if `publish_callback_` is non-null, invoke
it once on the given const Context.  The result records the unchanged
Context together with the list of observable callback effects (empty when
no callback is installed, a single effect otherwise). -/
def DoPublish {T E : Type} (sys : LogisticSystem T E) (context : Context T) :
    Context T × List E :=
  match sys.publish_callback with
  | none => (context, [])
  | some f => (context, [f context])

/-- `LogisticSystem::set_publish_callback`. -/
def set_publish_callback {T E : Type} (sys : LogisticSystem T E)
    (callback : Context T → E) : LogisticSystem T E :=
  { sys with publish_callback := some callback }

/-- C1: `DoCalcTimeDerivatives` leaves the Context unchanged, and on a
derivative buffer of the declared continuous-state size (1) it writes the
single component `alpha * (1 - pow(x/k, nu)) * t`, where `x` is continuous
state component 0 and `t` is the Context time. -/
theorem c1_DoCalcTimeDerivatives_correct {T E : Type} [Field T]
    (pw : T → T → T) (k alpha nu : T) (context : Context T) (buf : List T)
    (hbuf : buf.length =
      (mkLogisticSystem (T := T) (E := E) k alpha nu).2.continuousStateSize) :
    (DoCalcTimeDerivatives pw (mkLogisticSystem (T := T) (E := E) k alpha nu).1
        context buf).1 = context ∧
    (DoCalcTimeDerivatives pw (mkLogisticSystem (T := T) (E := E) k alpha nu).1
        context buf).2 =
      [alpha * (1 - pw (context.continuous.getD 0 0 / k) nu) * context.time] := by
  have h1 : buf.length = 1 := hbuf
  obtain ⟨a, rfl⟩ := List.length_eq_one.mp h1
  exact ⟨rfl, rfl⟩

/-- Witness for C1 at a concrete input: `T = E = ℚ`, `pow` instantiated to
multiplication, parameters `k = 2`, `alpha = 3`, `nu = 5`, state `x = 6`
at time `4`, buffer `[0]`. -/
theorem c1_DoCalcTimeDerivatives_correct_witness :
    (DoCalcTimeDerivatives (fun a b => a * b)
        (mkLogisticSystem (T := ℚ) (E := ℚ) 2 3 5).1 ⟨4, [6]⟩ [0]).1 =
      (⟨4, [6]⟩ : Context ℚ) ∧
    (DoCalcTimeDerivatives (fun a b => a * b)
        (mkLogisticSystem (T := ℚ) (E := ℚ) 2 3 5).1 ⟨4, [6]⟩ [0]).2 =
      [3 * (1 - (fun a b => a * b) ((6 : ℚ) / 2) 5) * 4] :=
  c1_DoCalcTimeDerivatives_correct (fun a b => a * b) 2 3 5 ⟨4, [6]⟩ [0] (by decide)

/-- C2: `LogisticWitness::DoEvaluate` is pure: it returns exactly component
0 of the continuous state, leaves the Context unchanged, and evaluating
again on the resulting Context returns the same value. -/
theorem c2_DoEvaluate_pure {T : Type} [Field T] (context : Context T) :
    (DoEvaluateFull context).1 = context ∧
    (DoEvaluateFull context).2 = context.continuous.getD 0 0 ∧
    (DoEvaluateFull (DoEvaluateFull context).1).2 = (DoEvaluateFull context).2 :=
  ⟨rfl, rfl, rfl⟩

/-- C3: `get_witness_functions` returns exactly one witness function, the
system's own stored witness, which the constructor built with trigger
`kCrossesZero` and action `kPublishAction`. -/
theorem c3_get_witness_functions {T E : Type} [Field T] (k alpha nu : T)
    (sys : LogisticSystem T E) (context : Context T) :
    get_witness_functions sys context = [sys.witness] ∧
    (mkLogisticSystem (T := T) (E := E) k alpha nu).1.witness.direction =
      DirectionType.kCrossesZero ∧
    (mkLogisticSystem (T := T) (E := E) k alpha nu).1.witness.action =
      ActionType.kPublishAction :=
  ⟨rfl, rfl, rfl⟩

/-- C4: the constructor declares continuous-state size 1, and no operation
of the system (derivative computation, witness evaluation, publish) changes
the length of the Context's continuous-state vector; the derivative buffer
also keeps its length. -/
theorem c4_continuous_size_invariant {T E : Type} [Field T] (pw : T → T → T)
    (k alpha nu : T) (sys : LogisticSystem T E) (context : Context T)
    (buf : List T) :
    (mkLogisticSystem (T := T) (E := E) k alpha nu).2.continuousStateSize = 1 ∧
    ((DoCalcTimeDerivatives pw sys context buf).1).continuous.length =
      context.continuous.length ∧
    (DoCalcTimeDerivatives pw sys context buf).2.length = buf.length ∧
    ((DoEvaluateFull context).1).continuous.length = context.continuous.length ∧
    ((DoPublish sys context).1).continuous.length = context.continuous.length := by
  refine ⟨rfl, rfl, ?_, rfl, ?_⟩
  · simp [DoCalcTimeDerivatives]
  · cases h : sys.publish_callback <;> simp [DoPublish, h]

/-- C9: a freshly constructed system has a null publish callback; with a
null callback `DoPublish` is a no-op (no call, Context unchanged); with a
callback installed, `DoPublish` invokes exactly that callback once with the
given Context. -/
theorem c9_DoPublish_callback {T E : Type} [Field T] (k alpha nu : T)
    (sys : LogisticSystem T E) (context : Context T) (f : Context T → E) :
    (mkLogisticSystem (T := T) (E := E) k alpha nu).1.publish_callback = none ∧
    (sys.publish_callback = none → DoPublish sys context = (context, [])) ∧
    DoPublish (set_publish_callback sys f) context = (context, [f context]) := by
  refine ⟨rfl, ?_, rfl⟩
  intro h
  simp [DoPublish, h]

/-- Witness for C9 at a concrete input: the default-constructed system over
`ℚ` publishes nothing, and after installing a concrete callback it invokes
that callback once on the given Context. -/
theorem c9_DoPublish_callback_witness :
    DoPublish (mkLogisticSystem (T := ℚ) (E := ℚ) 2 3 5).1 ⟨4, [6]⟩ =
      ((⟨4, [6]⟩ : Context ℚ), []) ∧
    DoPublish (set_publish_callback (mkLogisticSystem (T := ℚ) (E := ℚ) 2 3 5).1
        (fun c => c.time)) ⟨4, [6]⟩ =
      ((⟨4, [6]⟩ : Context ℚ), [(fun c : Context ℚ => c.time) ⟨4, [6]⟩]) :=
  ⟨(c9_DoPublish_callback 2 3 5 (mkLogisticSystem 2 3 5).1 ⟨4, [6]⟩
      (fun c => c.time)).2.1 rfl,
   (c9_DoPublish_callback 2 3 5 (mkLogisticSystem 2 3 5).1 ⟨4, [6]⟩
      (fun c => c.time)).2.2⟩

/-! Manipulation station (`examples/manipulation_station/manipulation_station.cc`).
The station is only instantiated at `double`; it is modelled over `ℚ`. -/

/-- `ManipulationStation::SetIiwaGains`: throws unless the plant is not yet
finalized, the new gain vector matches the stored one in size, and every new
gain is non-negative; only then assigns `*gains = new_gains`.  The result is
the pair (error raised?, stored gains afterwards); a throw happens before
the assignment, so on error the stored gains are unchanged. -/
def SetIiwaGains (finalized : Bool) (new_gains gains : List ℚ) :
    Bool × List ℚ :=
  if finalized then (true, gains)
  else if new_gains.length ≠ gains.length then (true, gains)
  else if ¬ new_gains.all (fun g => decide ((0 : ℚ) ≤ g)) then (true, gains)
  else (false, new_gains)

/-- Configuration errors `ManipulationStation::Finalize` can raise before
building its diagram. -/
inductive ConfigError where
  | iiwaModelMissing
  | wsgModelMissing
  deriving DecidableEq

/-- `ManipulationStation::Finalize`: first demands that both controller
model instances are valid (`is_valid()`; a registered instance is `some`,
an unregistered default is `none`), and only then runs the rest of the
build (controller-plant creation, plant finalize, diagram wiring), which is
abstracted as the opaque continuation `build`. -/
def Finalize {D : Type} (iiwa_instance wsg_instance : Option Nat)
    (build : Unit → D) : Except ConfigError D :=
  if iiwa_instance.isSome then
    if wsg_instance.isSome then Except.ok (build ())
    else Except.error ConfigError.wsgModelMissing
  else Except.error ConfigError.iiwaModelMissing

/-- The slice of the station Context that the WSG position accessors touch:
the two finger prismatic-joint translations in the plant sub-Context and the
WSG controller's desired-position state. -/
structure StationContext where
  right_finger_translation : ℚ
  left_finger_translation : ℚ
  wsg_controller_position : ℚ
  deriving DecidableEq

/-- `ManipulationStation::SetWsgPosition`: sets the right finger sliding
joint to `q / 2`, the left one to `-q / 2`, and the controller's position
history to `q`. -/
def SetWsgPosition (q : ℚ) (station_context : StationContext) :
    StationContext :=
  { station_context with
    right_finger_translation := q / 2
    left_finger_translation := -q / 2
    wsg_controller_position := q }

/-- `ManipulationStation::GetWsgPosition`: right finger translation minus
left finger translation. -/
def GetWsgPosition (station_context : StationContext) : ℚ :=
  station_context.right_finger_translation -
    station_context.left_finger_translation

/-- A multibody frame as the camera code uses it: the index of the body it
is attached to and its fixed pose in that body (`GetFixedPoseInBodyFrame`).
Poses live in an opaque type `P` composed by `comp`. -/
structure Frame (P : Type) where
  bodyIndex : Nat
  fixedPoseInBody : P

/-- `ManipulationStation::CameraInformation`: parent frame, registered pose
`X_PC`, and renderer properties (opaque type `Q`). -/
structure CameraInformation (P : Type) (Q : Type) where
  parent_frame : Frame P
  X_PC : P
  properties : Q

/-- `ManipulationStation::RegisterRgbdCamera`: stores the camera info in
the name-keyed map (`camera_information_[name] = info`), overwriting any
entry with the same name. -/
def RegisterRgbdCamera {N P Q : Type} [DecidableEq N] (name : N)
    (parent_frame : Frame P) (X_PC : P) (properties : Q)
    (camera_information : List (N × CameraInformation P Q)) :
    List (N × CameraInformation P Q) :=
  if camera_information.any (fun e => decide (e.1 = name)) then
    camera_information.map (fun e =>
      if e.1 = name then (name, ⟨parent_frame, X_PC, properties⟩) else e)
  else
    camera_information ++ [(name, ⟨parent_frame, X_PC, properties⟩)]

/-- `ManipulationStation::GetStaticCameraPosesInWorld`: keeps exactly the
registered cameras whose parent frame's body is the world body, mapping
each name to `X_WP * X_PC` where `X_WP` is the parent frame's fixed pose in
the (world) body; `comp` is rigid-transform composition. -/
def GetStaticCameraPosesInWorld {N P Q : Type} (comp : P → P → P)
    (worldBodyIndex : Nat)
    (camera_information : List (N × CameraInformation P Q)) : List (N × P) :=
  camera_information.filterMap (fun info =>
    if info.2.parent_frame.bodyIndex = worldBodyIndex then
      some (info.1, comp info.2.parent_frame.fixedPoseInBody info.2.X_PC)
    else none)

/-- C5: `SetIiwaGains` errors exactly when the plant is finalized, the
sizes differ, or some new gain is negative; on error the stored gains are
unchanged, otherwise they are replaced by the new gains. -/
theorem c5_SetIiwaGains_spec (finalized : Bool) (new_gains gains : List ℚ) :
    ((SetIiwaGains finalized new_gains gains).1 = true ↔
      (finalized = true ∨ new_gains.length ≠ gains.length ∨
        ∃ g ∈ new_gains, g < 0)) ∧
    ((SetIiwaGains finalized new_gains gains).1 = true →
      (SetIiwaGains finalized new_gains gains).2 = gains) ∧
    ((SetIiwaGains finalized new_gains gains).1 = false →
      (SetIiwaGains finalized new_gains gains).2 = new_gains) := by
  unfold SetIiwaGains
  by_cases hf : finalized
  · subst hf
    simp
  · simp only [hf, if_false, Bool.false_eq_true, false_or]
    by_cases hl : new_gains.length = gains.length
    · simp only [hl, ne_eq, not_true_eq_false, if_false, not_false_eq_true,
        false_or]
      by_cases ha : new_gains.all (fun g => decide ((0 : ℚ) ≤ g))
      · have hno : ¬ ∃ g ∈ new_gains, g < 0 := by
          rw [List.all_eq_true] at ha
          rintro ⟨g, hg, hglt⟩
          exact absurd (of_decide_eq_true (ha g hg)) (not_le.mpr hglt)
        simp [ha, hno]
      · have hyes : ∃ g ∈ new_gains, g < 0 := by
          rw [List.all_eq_true] at ha
          push_neg at ha
          obtain ⟨g, hg, hgd⟩ := ha
          exact ⟨g, hg, not_le.mp (fun hle => hgd (decide_eq_true hle))⟩
        simp [ha, hyes]
    · simp [hl]

/-- Witness for C5 at concrete inputs: with the plant not finalized, a
matching size, and the negative gain `-1`, an error is raised and the
stored gains are unchanged. -/
theorem c5_SetIiwaGains_spec_witness :
    (SetIiwaGains false [-1] [2]).1 = true ∧
    (SetIiwaGains false [-1] [2]).2 = [2] := by
  refine ⟨(c5_SetIiwaGains_spec false [-1] [2]).1.mpr ?_, ?_⟩
  · exact Or.inr (Or.inr ⟨-1, by decide, by decide⟩)
  · exact (c5_SetIiwaGains_spec false [-1] [2]).2.1
      ((c5_SetIiwaGains_spec false [-1] [2]).1.mpr
        (Or.inr (Or.inr ⟨-1, by decide, by decide⟩)))

/-- C6: `Finalize` raises a configuration error exactly when a controller
model instance is missing; that error does not depend on the build
continuation (so it is raised before any building), and with both models
registered the build runs. -/
theorem c6_Finalize_build_time_errors {D : Type}
    (iiwa_instance wsg_instance : Option Nat) (build build' : Unit → D) :
    (iiwa_instance = none →
      Finalize iiwa_instance wsg_instance build =
        Except.error ConfigError.iiwaModelMissing) ∧
    (iiwa_instance.isSome → wsg_instance = none →
      Finalize iiwa_instance wsg_instance build =
        Except.error ConfigError.wsgModelMissing) ∧
    ((iiwa_instance = none ∨ wsg_instance = none) →
      Finalize iiwa_instance wsg_instance build =
        Finalize iiwa_instance wsg_instance build') ∧
    (iiwa_instance.isSome → wsg_instance.isSome →
      Finalize iiwa_instance wsg_instance build = Except.ok (build ())) := by
  refine ⟨?_, ?_, ?_, ?_⟩
  · intro h; subst h; rfl
  · intro hi hw; subst hw; simp [Finalize, hi]
  · rintro (h | h)
    · subst h; rfl
    · subst h
      cases iiwa_instance <;> rfl
  · intro hi hw; simp [Finalize, hi, hw]

/-- Witness for C6 at concrete inputs over `D = ℚ`: a missing iiwa model
errors identically under two different build continuations, and with both
models registered the build result is returned. -/
theorem c6_Finalize_build_time_errors_witness :
    Finalize (D := ℚ) none (some 0) (fun _ => 7) =
      Except.error ConfigError.iiwaModelMissing ∧
    Finalize (D := ℚ) none (some 0) (fun _ => 7) =
      Finalize (D := ℚ) none (some 0) (fun _ => 8) ∧
    Finalize (D := ℚ) (some 1) (some 0) (fun _ => 7) = Except.ok 7 :=
  ⟨(c6_Finalize_build_time_errors none (some 0) (fun _ => 7)
      (fun _ => 8)).1 rfl,
   (c6_Finalize_build_time_errors none (some 0) (fun _ => 7)
      (fun _ => 8)).2.2.1 (Or.inl rfl),
   (c6_Finalize_build_time_errors (some 1) (some 0) (fun _ => 7)
      (fun _ => 8)).2.2.2 rfl rfl⟩

/-- C8: setting then getting the gripper opening is a round-trip: after
`SetWsgPosition q`, `GetWsgPosition` returns `q`. -/
theorem c8_wsg_position_roundtrip (q : ℚ) (station_context : StationContext) :
    GetWsgPosition (SetWsgPosition q station_context) = q := by
  simp only [GetWsgPosition, SetWsgPosition]
  ring

/-- C10: a name-pose pair is returned by `GetStaticCameraPosesInWorld`
exactly when a camera of that name is registered with a parent frame on the
world body, and the pose is the composition of the frame's fixed pose in
the world body with the registered `X_PC`; cameras on non-world frames are
omitted. -/
theorem c10_static_camera_poses {N P Q : Type} (comp : P → P → P)
    (worldBodyIndex : Nat)
    (camera_information : List (N × CameraInformation P Q)) (name : N)
    (pose : P) :
    (name, pose) ∈
        GetStaticCameraPosesInWorld comp worldBodyIndex camera_information ↔
      ∃ ci : CameraInformation P Q, (name, ci) ∈ camera_information ∧
        ci.parent_frame.bodyIndex = worldBodyIndex ∧
        pose = comp ci.parent_frame.fixedPoseInBody ci.X_PC := by
  unfold GetStaticCameraPosesInWorld
  rw [List.mem_filterMap]
  constructor
  · rintro ⟨⟨n, ci⟩, hmem, heq⟩
    by_cases h : ci.parent_frame.bodyIndex = worldBodyIndex
    · simp only [h, if_true] at heq
      obtain ⟨hn, hp⟩ := Prod.mk.injEq .. ▸ Option.some.injEq .. ▸ heq
      exact ⟨ci, by rwa [hn] at hmem, h, hp.symm⟩
    · simp [h] at heq
  · rintro ⟨ci, hmem, hworld, hpose⟩
    exact ⟨(name, ci), hmem, by simp [hworld, hpose]⟩

/-! Simulator, modelled from the spec.  The Simulator / `Simulate` entry
point is code of this repository that is not among the provided source
files (only the witness-function test harness above is); the definitions
below follow spec sections 4.2, 4.3 and 6. -/

/-- Modelled from the spec: a witness function as the Simulator sees it
(spec section 3): a trigger type, an evaluation rule over the (time, state)
Context slice, and the reset map its discrete event applies to the
continuous state. -/
structure SpecWitness where
  trigger : DirectionType
  eval : ℚ → ℚ → ℚ
  handler : ℚ → ℚ

/-- Modelled from the spec: a leaf system with one continuous-state
component: its derivative rule `deriv t x` and its witness functions in
declaration order. -/
structure SpecSystem where
  deriv : ℚ → ℚ → ℚ
  witnesses : List SpecWitness

/-- Modelled from the spec: recognized simulation config options; event
isolation is bounded by a bisection fuel instead of an absolute tolerance. -/
structure SimConfig where
  max_step : ℚ
  isolation_fuel : Nat

/-- Sign of a witness value: -1, 0, or 1. -/
def qsign (v : ℚ) : Int :=
  if v < 0 then -1 else if v = 0 then 0 else 1

/-- Sign snapshot of every witness function at `(t, x)` (spec step 1). -/
def witnessSigns (sys : SpecSystem) (t x : ℚ) : List Int :=
  sys.witnesses.map (fun w => qsign (w.eval t x))

/-- Modelled from the spec: the Integrator contract (spec section 4.2),
instantiated as a deterministic fixed-step explicit Euler advance of the
continuous state from the step snapshot `(t0, x0)` to time `t1`. -/
def eulerTo (sys : SpecSystem) (t0 x0 t1 : ℚ) : ℚ :=
  x0 + (t1 - t0) * sys.deriv t0 x0

/-- Modelled from the spec: which sign transitions match a trigger type
(spec step 3): crosses-zero matches any sign change, becomes-positive
matches non-positive to positive only, becomes-negative dually. -/
def matchesTrigger (d : DirectionType) (s0 s1 : Int) : Bool :=
  match d with
  | DirectionType.kCrossesZero => s0 != s1
  | DirectionType.kBecomesPositive => decide (s0 ≤ 0) && (s1 == 1)
  | DirectionType.kBecomesNegative => decide (0 ≤ s0) && (s1 == -1)

/-- Indices (in declaration order) of the witness functions whose trigger
condition matches the transition from sign snapshot `s0` to `s1`. -/
def candidateTriggered (sys : SpecSystem) (s0 s1 : List Int) : List Nat :=
  (List.range sys.witnesses.length).filter (fun i =>
    match sys.witnesses[i]?, s0[i]?, s1[i]? with
    | some w, some a, some b => matchesTrigger w.trigger a b
    | _, _, _ => false)

/-- Modelled from the spec: bracketed bisection root search on `[lo, hi]`
(spec step 5), keeping the sub-interval whose right endpoint still shows a
triggering sign change relative to the pre-step snapshot `s0`; the state at
each probe time is re-integrated from the step snapshot `(t0, x0)`. -/
def isolateRoot (sys : SpecSystem) (t0 x0 : ℚ) (s0 : List Int) :
    Nat → ℚ → ℚ → ℚ
  | 0, _lo, hi => hi
  | Nat.succ n, lo, hi =>
    let mid := (lo + hi) / 2
    let smid := witnessSigns sys mid (eulerTo sys t0 x0 mid)
    if candidateTriggered sys s0 smid ≠ [] then
      isolateRoot sys t0 x0 s0 n lo mid
    else
      isolateRoot sys t0 x0 s0 n mid hi

/-- Modelled from the spec: run outcome (spec section 6); fuel exhaustion
plays the role of the excessive-events guard. -/
inductive SimOutcome where
  | completed
  | failed
  deriving DecidableEq

/-- Modelled from the spec: result of a simulation run: final time and
state (the final Context), the event log (one entry per dispatch instant:
the isolated time and the indices fired there, in declaration order), and
the outcome. -/
structure SimResult where
  final_time : ℚ
  final_state : ℚ
  event_log : List (ℚ × List Nat)
  outcome : SimOutcome
  deriving DecidableEq

/-- Dispatch the handlers of the triggered witnesses, in declaration order
(spec steps 6 and 7). -/
def dispatchAll (sys : SpecSystem) (fired : List Nat) (x : ℚ) : ℚ :=
  fired.foldl (fun acc i =>
    match sys.witnesses[i]? with
    | some w => w.handler acc
    | none => acc) x

/-- Modelled from the spec: the event-driven stepping loop (spec section
4.3, steps 2 through 8): propose `t1 = min(t + max_step, T)`, integrate,
compare witness signs, and either commit the step or isolate the crossing
time, dispatch every triggered witness once at that instant, re-snapshot
signs post-event and resume. -/
def simLoop (sys : SpecSystem) (cfg : SimConfig) (T : ℚ) :
    Nat → ℚ → ℚ → List Int → List (ℚ × List Nat) → SimResult
  | 0, t, x, _s0, log => ⟨t, x, log.reverse, SimOutcome.failed⟩
  | Nat.succ fuel, t, x, s0, log =>
    if T ≤ t then ⟨t, x, log.reverse, SimOutcome.completed⟩
    else
      let t1 := min (t + cfg.max_step) T
      let x1 := eulerTo sys t x t1
      let s1 := witnessSigns sys t1 x1
      let fired := candidateTriggered sys s0 s1
      if fired = [] then
        simLoop sys cfg T fuel t1 x1 s1 log
      else
        let tstar := isolateRoot sys t x s0 cfg.isolation_fuel t t1
        let xstar := eulerTo sys t x tstar
        let xpost := dispatchAll sys fired xstar
        let spost := witnessSigns sys tstar xpost
        simLoop sys cfg T fuel tstar xpost spost ((tstar, fired) :: log)

/-- Modelled from the spec: `Simulate(system, initial_context, end_time,
config)`: snapshot the initial witness signs and run the stepping loop. -/
def Simulate (sys : SpecSystem) (t0 x0 T : ℚ) (cfg : SimConfig)
    (fuel : Nat) : SimResult :=
  simLoop sys cfg T fuel t0 x0 (witnessSigns sys t0 x0) []

/-- Within one dispatch instant, each witness index appears at most once:
the event log has no duplicate index in any batch. -/
def batchesNodup (log : List (ℚ × List Nat)) : Prop :=
  ∀ b ∈ log, b.2.Nodup

theorem candidateTriggered_nodup (sys : SpecSystem) (s0 s1 : List Int) :
    (candidateTriggered sys s0 s1).Nodup :=
  (List.nodup_range _).filter _

theorem simLoop_batchesNodup (sys : SpecSystem) (cfg : SimConfig) (T : ℚ) :
    ∀ (fuel : Nat) (t x : ℚ) (s0 : List Int) (log : List (ℚ × List Nat)),
      batchesNodup log →
      batchesNodup (simLoop sys cfg T fuel t x s0 log).event_log := by
  intro fuel
  induction fuel with
  | zero =>
    intro t x s0 log hlog b hb
    exact hlog b (List.mem_reverse.mp hb)
  | succ n ih =>
    intro t x s0 log hlog
    rw [simLoop]
    by_cases hT : T ≤ t
    · simp only [hT, if_true]
      intro b hb
      exact hlog b (List.mem_reverse.mp hb)
    · simp only [hT, if_false]
      by_cases hfired :
          candidateTriggered sys s0
            (witnessSigns sys (min (t + cfg.max_step) T)
              (eulerTo sys t x (min (t + cfg.max_step) T))) = []
      · simp only [hfired, if_true]
        exact ih _ _ _ _ hlog
      · simp only [hfired, if_false]
        refine ih _ _ _ _ ?_
        intro b hb
        rcases List.mem_cons.mp hb with h | h
        · rw [h]
          exact candidateTriggered_nodup sys s0 _
        · exact hlog b h

/-- C7: the spec-modelled `Simulate` is deterministic: two runs on
identical inputs produce identical results (final Context, event log,
outcome), and no witness event fires twice at any dispatch instant (every
event-log batch lists each witness index at most once). -/
theorem c7_Simulate_deterministic (sys : SpecSystem) (t0 x0 T : ℚ)
    (cfg : SimConfig) (fuel : Nat) :
    Simulate sys t0 x0 T cfg fuel = Simulate sys t0 x0 T cfg fuel ∧
    batchesNodup (Simulate sys t0 x0 T cfg fuel).event_log :=
  ⟨rfl, simLoop_batchesNodup sys cfg T fuel t0 x0 _ _ (fun _ hb => absurd hb
    (List.not_mem_nil _))⟩

/-- Witness for C7 at a concrete run: a system with a single crosses-zero
witness `f(t, x) = x`, derivative `dx/dt = 1`, initial state `x(0) = -1/2`,
end time `1`: the run is equal to itself and its event log has no batch
with a duplicated witness index. -/
theorem c7_Simulate_deterministic_witness :
    Simulate ⟨fun _ _ => 1, [⟨DirectionType.kCrossesZero, fun _ x => x,
        fun x => x⟩]⟩ 0 (-1/2) 1 ⟨1, 3⟩ 5 =
      Simulate ⟨fun _ _ => 1, [⟨DirectionType.kCrossesZero, fun _ x => x,
        fun x => x⟩]⟩ 0 (-1/2) 1 ⟨1, 3⟩ 5 ∧
    batchesNodup (Simulate ⟨fun _ _ => 1, [⟨DirectionType.kCrossesZero,
        fun _ x => x, fun x => x⟩]⟩ 0 (-1/2) 1 ⟨1, 3⟩ 5).event_log :=
  c7_Simulate_deterministic ⟨fun _ _ => 1, [⟨DirectionType.kCrossesZero,
    fun _ x => x, fun x => x⟩]⟩ 0 (-1/2) 1 ⟨1, 3⟩ 5

end Drake
